import Mathlib

/-!
Verification development for the firehose-core merged-blocks integrity scanner
(`CheckMergedBlocksBatch` / `checkMergedBlockFileBroken`) and the
`download-from-firehose` streaming ingestion loop
(`createToolsDownloadFromFirehoseE`).

The Go source is shallowly embedded: machine integers become `Nat` with the
wrap-around of `uint32` / `uint64` made explicit (`% 2^32`, `% 2^64`) where the
source can overflow, external collaborators (object store, block codec, gRPC
stream) become explicit traces of the values they deliver, and each call site
that discards an error in the source discards it in the embedding as well.
-/

namespace Firehose

/-- `2^32`, the modulus of Go's `uint32`. -/
def U32 : Nat := 2 ^ 32

/-- `2^64`, the modulus of Go's `uint64`. -/
def U64 : Nat := 2 ^ 64

/-- Go conversion `uint32(n)` applied to a `uint64` value: keep the low 32 bits. -/
def uint32 (n : Nat) : Nat := n % U32

/-- Go expression `n - 1` evaluated on a `uint64` value `n < 2^64`
(wraps to `2^64 - 1` when `n = 0`). -/
def u64sub1 (n : Nat) : Nat := (n + (U64 - 1)) % U64

/-- The fields of `bstream.Block` read by the scanner: `Id` and `PreviousId`. -/
structure Block where
  id : String
  previousId : String
deriving Repr, DecidableEq

/-- What reading one merged-blocks object yields.  `openErr` models a failure of
`store.OpenObject` or `bstream.GetBlockReaderFactory.New` (before any block is
decoded); `content blocks readErr` models a reader that decodes `blocks` in
stored order and then ends with `io.EOF` (`readErr = none`) or a mid-stream
read error (`readErr = some e`), matching the block-codec contract of the spec
("signals end of stream distinctly from a mid-stream decode error"). -/
inductive BundleRead where
  | openErr (msg : String)
  | content (blocks : List Block) (readErr : Option String)
deriving Repr, DecidableEq

/-- The block-scanning loop of `checkMergedBlockFileBroken` (part_000 lines
116-144), with the reader presented as the list of blocks it decodes followed
by its terminal outcome.  Returns `(broken, lastHash, err)` exactly as the Go
named return values. -/
def checkBlocks : String → List Block → Option String → Bool × String × Option String
  | lastHash, [], readErr => (false, lastHash, readErr)
  | lastHash, block :: rest, readErr =>
    if block.id = "" then (true, lastHash, none)
    else
      let seeded := if lastHash = "" then block.previousId else lastHash
      if block.previousId ≠ seeded then (true, seeded, none)
      else checkBlocks block.id rest readErr

/-- `checkMergedBlockFileBroken` (part_000 lines 97-146).  An open or
reader-creation failure returns `(true, "", err)` (lines 105-114); otherwise the
block loop runs on the decoded content. -/
def checkMergedBlockFileBroken (bundle : BundleRead) (lastBlockHash : String) :
    Bool × String × Option String :=
  match bundle with
  | .openErr e => (true, "", some e)
  | .content blocks readErr => checkBlocks lastBlockHash blocks readErr

/-- Modelled from the spec: `tools.BlockRange` (not under src/): "{start: uint64,
stop: optional<uint64>}.  Must be resolved (start known, stop present or
explicitly open) before a scan begins".  The resolution state is carried as a
flag because the resolution logic lives outside src/. -/
structure BlockRange where
  start : Nat
  stop : Option Nat
  resolved : Bool
deriving Repr, DecidableEq

/-- Modelled from the spec: `BlockRange.IsResolved` (not under src/). -/
def BlockRange.IsResolved (br : BlockRange) : Bool := br.resolved

/-- Modelled from the spec: `BlockRange.IsClosed` (not under src/): the range has
an explicit stop. -/
def BlockRange.IsClosed (br : BlockRange) : Bool := br.stop.isSome

/-- Modelled from the spec: `BlockRange.GetStopBlockOr` (not under src/): the
stop block, or the given default for an open range. -/
def BlockRange.GetStopBlockOr (br : BlockRange) (deflt : Nat) : Nat :=
  br.stop.getD deflt

/-- Modelled from the spec: `bstream.RoundToBundleStartBlock` (not under src/):
"base number = the block number rounded down to the nearest multiple of
fileBlockSize", on `uint32` arguments.  For `fileBlockSize = 0` the Go code
panics (division by zero); every theorem below assumes `0 < fileBlockSize`. -/
def RoundToBundleStartBlock (blockNum fileBlockSize : Nat) : Nat :=
  blockNum - blockNum % fileBlockSize

/-- Modelled from the spec: `bstream.RoundToBundleEndBlock` (not under src/):
the last block number of the bundle holding `blockNum`, i.e. the rounded start
plus `fileBlockSize - 1`, on `uint32` arithmetic (hence the `% 2^32`). -/
def RoundToBundleEndBlock (blockNum fileBlockSize : Nat) : Nat :=
  (blockNum - blockNum % fileBlockSize + (fileBlockSize - 1)) % U32

/-- Go `strconv.ParseUint(s, 10, 32)` applied to a digit string of numeric value
`v` (the regex-match-to-digit-string step of `numberRegex`, which lives outside
src/, is abstracted by passing the numeric value).  Within the 32-bit bound the
value is returned with success; out of range Go returns the bound's maximum
value `2^32 - 1` together with `ErrRange`.  The caller (part_000 line 54)
discards the second component. -/
def parseUint32 (v : Nat) : Nat × Bool :=
  if v < U32 then (v, true) else (U32 - 1, false)

/-- Go `fmt.Sprintf` with format `%010d`: decimal, left-padded with zeros to
width 10. -/
def pad10 (n : Nat) : String :=
  let s := toString n
  String.mk (List.replicate (10 - s.length) '0') ++ s

/-- Destination key of a Missing marker: `<10-digit base>.missing`. -/
def missingKey (base : Nat) : String := pad10 base ++ ".missing"

/-- Destination key of a Broken marker: `<10-digit base>.broken`. -/
def brokenKey (base : Nat) : String := pad10 base ++ ".broken"

/-- Console line printed when a missing bundle is found (part_000 line 64). -/
def missingLog (base : Nat) : String :=
  "found missing file " ++ missingKey base ++ ", writing to store"

/-- Console line printed when a broken bundle is found (part_000 line 72). -/
def brokenLog (base : Nat) : String :=
  "found broken file " ++ brokenKey base ++ ", writing to store"

/-- Error message of part_000 line 60. -/
def belowExpectedMsg (baseNum expected : Nat) : String :=
  "unhandled error: found base number " ++ toString baseNum ++
    " below expected " ++ toString expected

/-- `destStore.WriteObject` for an empty marker object, with the outcome of the
write supplied by the environment `writeOk`.  Both call sites in the source
(part_000 lines 65 and 73) discard the returned error. -/
def writeObject (writeOk : String → Bool) (key : String) : Option String :=
  if writeOk key then none else some ("write failed: " ++ key)

/-- Go `strings.HasSuffix`, decided on the character lists (the library
`String.endsWith` does not reduce inside the kernel). -/
def hasSuffix (s suffix : String) : Bool := List.isSuffixOf suffix.data s.data

/-- One file listed by `blocksStore.WalkFrom`: its key, the numeric value of the
`numberRegex` match on the key (if any), and what reading the object yields. -/
structure WalkEntry where
  name : String
  numMatch : Option Nat
  bundle : BundleRead
deriving Repr, DecidableEq

/-- The mutable state of the walk callback of `CheckMergedBlocksBatch`:
`expected` and `lastBlockHash` are the two closure variables; `writes` records
the destination keys passed to `destStore.WriteObject` in order; `logs` records
the console output in order. -/
structure ScanState where
  expected : Nat
  lastBlockHash : String
  writes : List String
  logs : List String
deriving Repr, DecidableEq

/-- The `for expected < baseNum` fill loop of part_000 lines 62-67, returning
the base numbers for which a Missing marker is emitted (in order) together with
the final value of `expected`.  The loop is driven by the fuel `target - e`,
which bounds its iteration count whenever `0 < fbs`; for `fbs = 0` the Go loop
does not terminate, so no theorem below concerns that case. -/
def fillMissingGo (fbs target : Nat) : Nat → Nat → List Nat × Nat
  | 0, e => ([], e)
  | fuel + 1, e =>
    if target ≤ e then ([], e)
    else
      let next := fillMissingGo fbs target fuel (e + fbs)
      (e :: next.1, next.2)

/-- Entry point of the fill loop: start it with enough fuel. -/
def fillMissing (fbs expected target : Nat) : List Nat × Nat :=
  fillMissingGo fbs target (target - expected) expected

/-- The stop test of part_000 line 83:
`RoundToBundleEndBlock(uint32(baseNum), fileBlockSize) >= uint32(*blockRange.Stop-1)`. -/
def stopBoundaryHit (baseNum stp fbs : Nat) : Bool :=
  decide (RoundToBundleEndBlock (uint32 baseNum) fbs ≥ uint32 (u64sub1 stp))

/-- The result of one invocation of the walk callback: keep walking, stop the
walk cleanly (`dstore.StopIteration`), or abort the walk with an error. -/
inductive StepResult where
  | cont (st : ScanState)
  | stop (st : ScanState)
  | fail (st : ScanState) (msg : String)
deriving Repr, DecidableEq

/-- The body of the walk callback after its guards have passed (part_000 lines
62-87): fill missing markers, check the bundle, classify it, propagate a read
error, test the stop boundary, advance `expected`.  The `writeObject` results
are bound and discarded, exactly as the source discards the `WriteObject`
errors. -/
def processEntry (fbs : Nat) (br : BlockRange) (writeOk : String → Bool)
    (st : ScanState) (entry : WalkEntry) (baseNum : Nat) : StepResult :=
  let fill := fillMissing fbs st.expected baseNum
  let _missingWriteResults := List.map (fun b => writeObject writeOk (missingKey b)) fill.1
  let st1 : ScanState :=
    { st with
      expected := fill.2
      writes := st.writes ++ List.map missingKey fill.1
      logs := st.logs ++ List.map missingLog fill.1 ++ ["checking " ++ entry.name] }
  let res := checkMergedBlockFileBroken entry.bundle st1.lastBlockHash
  let _brokenWriteResult :=
    if res.1 then some (writeObject writeOk (brokenKey baseNum)) else none
  let st2 :=
    if res.1 then
      { st1 with
        writes := st1.writes ++ [brokenKey baseNum]
        logs := st1.logs ++ [brokenLog baseNum]
        lastBlockHash := "" }
    else { st1 with lastBlockHash := res.2.1 }
  match res.2.2 with
  | some e => .fail st2 e
  | none =>
    if br.IsClosed && stopBoundaryHit baseNum (br.stop.getD 0) fbs then .stop st2
    else .cont { st2 with expected := baseNum + fbs }

/-- One invocation of the walk callback of `CheckMergedBlocksBatch` (part_000
lines 44-88): skip `.tmp` files and files without a number match, parse the
base number with a discarded error, skip bundles entirely below the range
start, fail on an out-of-order base number, otherwise process the bundle. -/
def scanStep (fbs : Nat) (br : BlockRange) (writeOk : String → Bool)
    (st : ScanState) (entry : WalkEntry) : StepResult :=
  if hasSuffix entry.name ".tmp" then .cont st
  else
    match entry.numMatch with
    | none => .cont st
    | some v =>
      let baseNum := (parseUint32 v).1
      if u64sub1 (baseNum + fbs) < br.start then .cont st
      else if baseNum < st.expected then
        .fail st (belowExpectedMsg baseNum st.expected)
      else processEntry fbs br writeOk st entry baseNum

/-- `blocksStore.WalkFrom` driving the callback over the listed files:
a `.fail` aborts the walk with the error, a `.stop` (`dstore.StopIteration`)
ends the walk cleanly, exhaustion ends it cleanly. -/
def scanWalk (fbs : Nat) (br : BlockRange) (writeOk : String → Bool) :
    List WalkEntry → ScanState → ScanState × Option String
  | [], st => (st, none)
  | entry :: rest, st =>
    match scanStep fbs br writeOk st entry with
    | .cont st1 => scanWalk fbs br writeOk rest st1
    | .stop st1 => (st1, none)
    | .fail st1 e => (st1, some e)

/-- The initial callback state of `CheckMergedBlocksBatch`:
`expected = RoundToBundleStartBlock(uint32(blockRange.Start), fileBlockSize)`
(part_000 line 29) and an empty `lastBlockHash` (line 43). -/
def initialScanState (br : BlockRange) (fbs : Nat) : ScanState :=
  { expected := RoundToBundleStartBlock (uint32 br.start) fbs
    lastBlockHash := ""
    writes := []
    logs := [] }

/-- The start key of the walk (part_000 line 41):
`fmt.Sprintf("%010d", RoundToBundleStartBlock(uint32(blockRange.Start), fileBlockSize))`. -/
def firstFilename (br : BlockRange) (fbs : Nat) : String :=
  pad10 (RoundToBundleStartBlock (uint32 br.start) fbs)

/-- `CheckMergedBlocksBatch` (part_000 lines 18-95), with the store walk
presented as the list of entries it yields from `firstFilename` on.  An
unresolved range fails before any store access. -/
def CheckMergedBlocksBatch (fbs : Nat) (br : BlockRange) (writeOk : String → Bool)
    (entries : List WalkEntry) : ScanState × Option String :=
  if !br.IsResolved then
    (initialScanState br fbs,
      some "check merged blocks can only work with fully resolved range")
  else scanWalk fbs br writeOk entries (initialScanState br fbs)

/-! ## The `download-from-firehose` loop (generator.go, `createToolsDownloadFromFirehoseE`)

The gRPC stream is embedded as the trace of values `stream.Recv()` delivers:
each connection attempt yields one list of `RecvResult`s.  Block decoding
(the `response.Metadata` branches, including `chain.BlockEncoder.Encode` and
`bstream.CursorFromOpaque`, which belong to external collaborators) is
abstracted by the trace carrying the resulting `pbbstream.Block` directly,
together with the opaque `response.Cursor` that accompanied it.  The legacy
LIB-approximation wrap that precedes the encoder is embedded separately below
(`wrapWithApproximateLib`). -/

/-- The fields of `pbbstream.Block` read by the download loop. -/
structure PBBlock where
  id : String
  parentId : String
  number : Nat
deriving Repr, DecidableEq

/-- The fields of `pbfirehose.Request` set by the download loop. -/
structure Request where
  startBlockNum : Nat
  stopBlockNum : Nat
  finalBlocksOnly : Bool
  cursor : String
deriving Repr, DecidableEq

/-- The part of `requestInfo` (returned by `getFirehoseStreamClientFromCmd`,
outside src/) that the download loop reads when building requests. -/
structure RequestInfo where
  cursor : String
deriving Repr, DecidableEq

/-- One outcome of `stream.Recv()`: clean end of stream (`io.EOF`), a transport
error, or a response carrying a decoded block and its opaque cursor. -/
inductive RecvResult where
  | eof
  | recvErr (msg : String)
  | block (blk : PBBlock) (respCursor : String)
deriving Repr, DecidableEq

/-- State of the download loop: the continuity variables `lastBlockID` and
`lastBlockNum` (generator.go lines 197-198), plus observation lists: the blocks
handed to `mergeWriter.ProcessBlock` in order, the requests passed to
`firehoseClient.Blocks` in order, and the number of backoff sleeps
(`<-time.After(retryDelay)`) performed. -/
structure DLState where
  lastBlockID : String
  lastBlockNum : Nat
  written : List PBBlock
  requests : List Request
  sleeps : Nat
deriving Repr, DecidableEq

/-- How one receive session ends: `done` on `io.EOF` (the function returns
`nil`), `retry` on a transport error (log, sleep, `break` to reconnect),
`fatal` on a non-retryable error, `pending` when the supplied trace ends while
the stream is still live. -/
inductive SessionOutcome where
  | done
  | retry
  | fatal (msg : String)
  | pending
deriving Repr, DecidableEq

/-- The continuity error of generator.go line 287. -/
def seqErrorMsg (blk : PBBlock) (lastBlockNum : Nat) (lastBlockID : String) : String :=
  "got an invalid sequence of blocks: block " ++ blk.id ++ " has previousId " ++
    blk.parentId ++ ", previous block " ++ toString lastBlockNum ++ " had ID " ++
    lastBlockID ++ ", this endpoint is serving blocks out of order"

/-- The inner `for { response, err := stream.Recv() ... }` loop (generator.go
lines 213-295): on a block, enforce parent linkage against `lastBlockID`
*before* handing the block to the merge writer; on success update
`lastBlockID` / `lastBlockNum` and append the block to `written`. -/
def recvLoop : List RecvResult → DLState → SessionOutcome × DLState
  | [], st => (.pending, st)
  | .eof :: _, st => (.done, st)
  | .recvErr _ :: _, st => (.retry, { st with sleeps := st.sleeps + 1 })
  | .block blk _ :: rest, st =>
    if st.lastBlockID != "" && blk.parentId != st.lastBlockID then
      (.fatal (seqErrorMsg blk st.lastBlockNum st.lastBlockID), st)
    else
      recvLoop rest
        { st with
          lastBlockID := blk.id
          lastBlockNum := blk.number
          written := st.written ++ [blk] }

/-- The request built at the top of every outer-loop iteration (generator.go
lines 201-206): always the original range start, `GetStopBlockOr(0)`,
`FinalBlocksOnly: true`, and `requestInfo.Cursor`. -/
def mkRequest (blockRange : BlockRange) (requestInfo : RequestInfo) : Request :=
  { startBlockNum := blockRange.start
    stopBlockNum := blockRange.GetStopBlockOr 0
    finalBlocksOnly := true
    cursor := requestInfo.cursor }

/-- Final outcome of the download command. -/
inductive DownloadResult where
  | done
  | fatal (msg : String)
  | pending
deriving Repr, DecidableEq

/-- The outer `for { ... }` loop (generator.go lines 199-296): build and issue
the request, consume the stream; a `retry` reconnects with the next session,
everything else ends the loop. -/
def downloadLoop (blockRange : BlockRange) (requestInfo : RequestInfo) :
    List (List RecvResult) → DLState → DownloadResult × DLState
  | [], st => (.pending, st)
  | sess :: rest, st =>
    let st1 := { st with requests := st.requests ++ [mkRequest blockRange requestInfo] }
    match recvLoop sess st1 with
    | (.done, st2) => (.done, st2)
    | (.fatal e, st2) => (.fatal e, st2)
    | (.pending, st2) => (.pending, st2)
    | (.retry, st2) => downloadLoop blockRange requestInfo rest st2

/-- `createToolsDownloadFromFirehoseE` (generator.go lines 164-298), run on a
trace of receive sessions, starting from the zero session state. -/
def createToolsDownloadFromFirehoseE (blockRange : BlockRange)
    (requestInfo : RequestInfo) (sessions : List (List RecvResult)) :
    DownloadResult × DLState :=
  downloadLoop blockRange requestInfo sessions
    { lastBlockID := "", lastBlockNum := 0, written := [], requests := [], sleeps := 0 }

/-- A block produced by `chain.BlockFactory()` and `anypb.UnmarshalTo` in the
fallback (no-metadata) path: its `GetFirehoseBlockNumber()` and whether its
type implements `firecore.BlockLIBNumDerivable`. -/
structure ChainBlock where
  number : Nat
  libDerivable : Bool
deriving Repr, DecidableEq

/-- What is handed to `chain.BlockEncoder.Encode`: the decoded block as-is, or
wrapped in a `firecore.BlockEnveloppe` with an explicit LIB number. -/
inductive EncoderInput where
  | asIs (b : ChainBlock)
  | blockEnveloppe (b : ChainBlock) (libNum : Nat)
deriving Repr, DecidableEq

/-- The LIB-approximation wrap of generator.go lines 244-263: a block whose type
cannot derive its LIB number is wrapped with `libNum := number - 1` (uint64),
overridden to `number` itself when
`number <= bstream.GetProtocolFirstStreamableBlock`; a derivable block is used
as-is. -/
def wrapWithApproximateLib (protocolFirstStreamableBlock : Nat)
    (b : ChainBlock) : EncoderInput :=
  if b.libDerivable then .asIs b
  else
    let number := b.number
    let libNum := u64sub1 number
    let libNum := if number ≤ protocolFirstStreamableBlock then number else libNum
    .blockEnveloppe b libNum

/-! ## Auxiliary predicates used by the theorems -/

/-- Every block of the list has a nonempty id and links to the id carried in
from its left neighbour. -/
def chainFrom (h : String) : List Block → Bool
  | [] => true
  | b :: rest => b.id != "" && b.previousId == h && chainFrom b.id rest

/-- The id of the last block of the nonempty list `b :: bs`. -/
def lastIdOf (b : Block) (bs : List Block) : String :=
  (List.map Block.id bs).getLastD b.id

/-- A walk trace of a contiguous, fully hash-chained stretch of the archive:
bundle bases advance by exactly `fbs` starting at `base`, every file is a real
bundle (`.tmp`-free, number-matched, below the 32-bit bound, not excluded by
the range start), every bundle decodes to a nonempty block list ending in
`io.EOF`, blocks chain internally, and the first block of each bundle links to
the carried-in hash (unconstrained when no chain is established yet). -/
def goodEntries (fbs start : Nat) : Nat → String → List WalkEntry → Bool
  | _, _, [] => true
  | base, h, entry :: rest =>
    !(hasSuffix entry.name ".tmp") &&
    entry.numMatch == some base &&
    decide (base < U32) &&
    decide (start ≤ base + fbs - 1) &&
    (match entry.bundle with
     | .content (b :: bs) none =>
       b.id != "" && (h == "" || b.previousId == h) && chainFrom b.id bs &&
       goodEntries fbs start (base + fbs) (lastIdOf b bs) rest
     | _ => false)

/-! ## Helper lemmas -/

theorem U64_val : U64 = 18446744073709551616 := by norm_num [U64]

theorem U32_val : U32 = 4294967296 := by norm_num [U32]

theorem u64sub1_eq {n : Nat} (h1 : 1 ≤ n) (h2 : n < U64) : u64sub1 n = n - 1 := by
  unfold u64sub1
  rw [U64_val] at h2 ⊢
  omega

theorem parseUint32_lt {v : Nat} (h : v < U32) : parseUint32 v = (v, true) := by
  simp [parseUint32, h]

theorem parseUint32_ge {v : Nat} (h : U32 ≤ v) : parseUint32 v = (U32 - 1, false) := by
  simp [parseUint32, Nat.not_lt.mpr h]

theorem fillMissing_self (fbs e : Nat) : fillMissing fbs e e = ([], e) := by
  simp [fillMissing, Nat.sub_self, fillMissingGo]

theorem lastIdOf_cons (b b2 : Block) (rest : List Block) :
    lastIdOf b (b2 :: rest) = lastIdOf b2 rest := by
  simp only [lastIdOf, List.map_cons, List.getLastD_cons]

/-- `checkBlocks` succeeds on a nonempty chained block list: not broken, the
carried hash becomes the last block's id, and the terminal reader outcome is
passed through. -/
theorem checkBlocks_ok (bs : List Block) :
    ∀ (b : Block) (h : String) (e : Option String),
      b.id ≠ "" → (h = "" ∨ b.previousId = h) → chainFrom b.id bs = true →
      checkBlocks h (b :: bs) e = (false, lastIdOf b bs, e) := by
  induction bs with
  | nil =>
    intro b h e hid hseed _
    rcases hseed with hs | hs
    · subst hs
      simp [checkBlocks, hid, lastIdOf]
    · simp only [checkBlocks, if_neg hid]
      rw [hs]
      by_cases hh : h = "" <;> simp [hh, checkBlocks, lastIdOf]
  | cons b2 rest ih =>
    intro b h e hid hseed hchain
    simp only [chainFrom, Bool.and_eq_true, bne_iff_ne, ne_eq, beq_iff_eq] at hchain
    obtain ⟨⟨h1, h2⟩, h3⟩ := hchain
    have step : checkBlocks h (b :: b2 :: rest) e = checkBlocks b.id (b2 :: rest) e := by
      rcases hseed with hs | hs
      · subst hs
        simp [checkBlocks, hid]
      · simp only [checkBlocks, if_neg hid]
        rw [hs]
        by_cases hh : h = "" <;> simp [hh]
    rw [step, ih b2 b.id e h1 (Or.inr h2) h3, lastIdOf_cons]

/-- When none of the three skip/abort guards of the walk callback fires, the
callback proceeds to process the bundle. -/
theorem scanStep_processed (fbs : Nat) (br : BlockRange) (writeOk : String → Bool)
    (st : ScanState) (entry : WalkEntry) (base : Nat)
    (htmp : hasSuffix entry.name ".tmp" = false)
    (hnum : entry.numMatch = some base)
    (hbase : base < U32)
    (hskip : ¬ u64sub1 (base + fbs) < br.start)
    (hord : ¬ base < st.expected) :
    scanStep fbs br writeOk st entry = processEntry fbs br writeOk st entry base := by
  unfold scanStep
  rw [htmp, hnum]
  simp only [Bool.false_eq_true, if_false, parseUint32_lt hbase, if_neg hskip, if_neg hord]

/-- A base number strictly below `expected` aborts the callback with the
ordering-violation error, leaving the state untouched. -/
theorem scanStep_below (fbs : Nat) (br : BlockRange) (writeOk : String → Bool)
    (st : ScanState) (entry : WalkEntry) (base : Nat)
    (htmp : hasSuffix entry.name ".tmp" = false)
    (hnum : entry.numMatch = some base)
    (hbase : base < U32)
    (hskip : ¬ u64sub1 (base + fbs) < br.start)
    (hord : base < st.expected) :
    scanStep fbs br writeOk st entry = .fail st (belowExpectedMsg base st.expected) := by
  unfold scanStep
  rw [htmp, hnum]
  simp only [Bool.false_eq_true, if_false, parseUint32_lt hbase, if_neg hskip, if_pos hord]

/-- Processing a bundle at exactly the expected base whose check comes back
clean: no marker, the carried hash advances, and the stop test decides whether
the walk continues. -/
theorem processEntry_clean (fbs : Nat) (br : BlockRange) (writeOk : String → Bool)
    (st : ScanState) (entry : WalkEntry) (base : Nat) (lastHash : String)
    (hexp : st.expected = base)
    (hres : checkMergedBlockFileBroken entry.bundle st.lastBlockHash =
      (false, lastHash, none)) :
    processEntry fbs br writeOk st entry base =
      (if br.IsClosed && stopBoundaryHit base (br.stop.getD 0) fbs then
        .stop { st with expected := base, lastBlockHash := lastHash,
                        logs := st.logs ++ ["checking " ++ entry.name] }
       else
        .cont { st with expected := base + fbs, lastBlockHash := lastHash,
                        logs := st.logs ++ ["checking " ++ entry.name] }) := by
  unfold processEntry
  simp only [hexp, fillMissing_self]
  simp [hres]

/-- Processing a bundle at exactly the expected base that is classified broken
without a propagated error: exactly one Broken marker is written and the
carried hash resets to empty. -/
theorem processEntry_broken (fbs : Nat) (br : BlockRange) (writeOk : String → Bool)
    (st : ScanState) (entry : WalkEntry) (base : Nat) (lastHash : String)
    (hexp : st.expected = base)
    (hres : checkMergedBlockFileBroken entry.bundle st.lastBlockHash =
      (true, lastHash, none)) :
    processEntry fbs br writeOk st entry base =
      (if br.IsClosed && stopBoundaryHit base (br.stop.getD 0) fbs then
        .stop { st with expected := base, lastBlockHash := "",
                        writes := st.writes ++ [brokenKey base],
                        logs := st.logs ++ ["checking " ++ entry.name, brokenLog base] }
       else
        .cont { st with expected := base + fbs, lastBlockHash := "",
                        writes := st.writes ++ [brokenKey base],
                        logs := st.logs ++ ["checking " ++ entry.name, brokenLog base] }) := by
  unfold processEntry
  simp only [hexp, fillMissing_self]
  simp [hres]

/-- Processing a bundle at exactly the expected base whose check returns a read
error without classifying the bundle broken: the walk callback propagates the
error and writes no marker. -/
theorem processEntry_err_clean (fbs : Nat) (br : BlockRange) (writeOk : String → Bool)
    (st : ScanState) (entry : WalkEntry) (base : Nat) (lastHash e : String)
    (hexp : st.expected = base)
    (hres : checkMergedBlockFileBroken entry.bundle st.lastBlockHash =
      (false, lastHash, some e)) :
    processEntry fbs br writeOk st entry base =
      .fail { st with expected := base, lastBlockHash := lastHash,
                      logs := st.logs ++ ["checking " ++ entry.name] } e := by
  unfold processEntry
  simp only [hexp, fillMissing_self]
  simp [hres]

/-- Processing a bundle at exactly the expected base whose open fails (broken
with a propagated error): the Broken marker is written, the hash resets, and
then the error aborts the walk. -/
theorem processEntry_err_broken (fbs : Nat) (br : BlockRange) (writeOk : String → Bool)
    (st : ScanState) (entry : WalkEntry) (base : Nat) (lastHash e : String)
    (hexp : st.expected = base)
    (hres : checkMergedBlockFileBroken entry.bundle st.lastBlockHash =
      (true, lastHash, some e)) :
    processEntry fbs br writeOk st entry base =
      .fail { st with expected := base, lastBlockHash := "",
                      writes := st.writes ++ [brokenKey base],
                      logs := st.logs ++ ["checking " ++ entry.name, brokenLog base] } e := by
  unfold processEntry
  simp only [hexp, fillMissing_self]
  simp [hres]

/-- Scanning a contiguous, fully hash-chained stretch of the archive writes no
marker and raises no error, whatever the carried-in chain hash the stretch was
built for. -/
theorem scanWalk_good (fbs : Nat) (br : BlockRange) (writeOk : String → Bool)
    (hfbs : 0 < fbs) (hfbs2 : fbs < U32) (entries : List WalkEntry) :
    ∀ (base : Nat) (h : String) (st : ScanState),
      goodEntries fbs br.start base h entries = true →
      st.expected = base → st.lastBlockHash = h →
      (scanWalk fbs br writeOk entries st).1.writes = st.writes ∧
      (scanWalk fbs br writeOk entries st).2 = none := by
  induction entries with
  | nil =>
    intro base h st _ _ _
    simp [scanWalk]
  | cons entry rest ih =>
    intro base h st hgood hexp hlast
    obtain ⟨ename, enum, ebundle⟩ := entry
    simp only [goodEntries, Bool.and_eq_true, Bool.not_eq_true', beq_iff_eq,
      decide_eq_true_eq] at hgood
    obtain ⟨⟨⟨⟨htmp, henum⟩, hbase⟩, hskip⟩, hbundle⟩ := hgood
    cases ebundle with
    | openErr e => simp at hbundle
    | content blocks readErr =>
      cases blocks with
      | nil => simp at hbundle
      | cons b bs =>
        cases readErr with
        | some e => simp at hbundle
        | none =>
          simp only [Bool.and_eq_true, bne_iff_ne, ne_eq, Bool.or_eq_true,
            beq_iff_eq] at hbundle
          obtain ⟨⟨⟨hid, hseed⟩, hchain⟩, hrest⟩ := hbundle
          subst hlast
          subst hexp
          have hsu : u64sub1 (st.expected + fbs) = st.expected + fbs - 1 := by
            apply u64sub1_eq (by omega)
            rw [U64_val]; rw [U32_val] at hbase hfbs2
            omega
          have hres : checkMergedBlockFileBroken
              (WalkEntry.bundle ⟨ename, enum, .content (b :: bs) none⟩)
              st.lastBlockHash = (false, lastIdOf b bs, none) :=
            checkBlocks_ok bs b st.lastBlockHash none hid hseed hchain
          have hstep := scanStep_processed fbs br writeOk st
            ⟨ename, enum, .content (b :: bs) none⟩ st.expected
            htmp henum hbase (by rw [hsu]; omega) (by omega)
          rw [processEntry_clean fbs br writeOk st _ st.expected (lastIdOf b bs) rfl hres]
            at hstep
          simp only [scanWalk, hstep]
          by_cases hstop :
              (br.IsClosed && stopBoundaryHit st.expected (br.stop.getD 0) fbs) = true
          · simp [hstop]
          · simp only [hstop, if_false, Bool.false_eq_true]
            exact ih (st.expected + fbs) (lastIdOf b bs) _ hrest rfl rfl

/-- Closed form of the fill loop: with positive stride and sufficient fuel it
emits exactly the arithmetic progression `e, e + fbs, ...` of the bases below
`target`, and leaves `expected` just past `target`. -/
theorem fillMissingGo_closed (fbs target : Nat) (hf : 0 < fbs) :
    ∀ (fuel e : Nat), target - e ≤ fuel →
      fillMissingGo fbs target fuel e =
        ((List.range ((target - e + fbs - 1) / fbs)).map (fun i => e + fbs * i),
         e + fbs * ((target - e + fbs - 1) / fbs)) := by
  intro fuel
  induction fuel with
  | zero =>
    intro e hfuel
    have h0 : target - e = 0 := by omega
    have hd : (fbs - 1) / fbs = 0 := Nat.div_eq_of_lt (by omega)
    simp [fillMissingGo, h0, hd]
  | succ n ih =>
    intro e hfuel
    by_cases hte : target ≤ e
    · have h0 : target - e = 0 := by omega
      have hd : (fbs - 1) / fbs = 0 := Nat.div_eq_of_lt (by omega)
      simp [fillMissingGo, hte, h0, hd]
    · have hc : (target - e + fbs - 1) / fbs
          = (target - (e + fbs) + fbs - 1) / fbs + 1 := by
        rcases Nat.lt_or_ge (target - e) fbs with hd | hd
        · have h1 : target - (e + fbs) = 0 := by omega
          have h2 : (target - (e + fbs) + fbs - 1) / fbs = 0 := by
            rw [h1]; exact Nat.div_eq_of_lt (by omega)
          have h3 : (target - e + fbs - 1) / fbs = 1 := by
            apply Nat.div_eq_of_lt_le (by omega) (by omega)
          rw [h2, h3]
        · have heq : target - e + fbs - 1 = (target - (e + fbs) + fbs - 1) + fbs := by
            omega
          rw [heq, Nat.add_div_right _ hf]
      rw [hc]
      simp only [fillMissingGo, if_neg hte]
      rw [ih (e + fbs) (by omega)]
      simp only [Prod.mk.injEq]
      constructor
      · rw [List.range_succ_eq_map]
        simp only [List.map_cons, List.map_map, Nat.mul_zero, Nat.add_zero]
        have hfun : ((fun i => e + fbs * i) ∘ Nat.succ) = fun i => e + fbs + fbs * i := by
          funext i
          simp only [Function.comp_apply, Nat.succ_eq_add_one]
          ring
        rw [hfun]
      · ring

/-- Closed form at the entry point of the fill loop. -/
theorem fillMissing_closed (fbs e target : Nat) (hf : 0 < fbs) :
    fillMissing fbs e target =
      ((List.range ((target - e + fbs - 1) / fbs)).map (fun i => e + fbs * i),
       e + fbs * ((target - e + fbs - 1) / fbs)) :=
  fillMissingGo_closed fbs target hf (target - e) e (le_refl _)

/-- The walk callback never reads the result of a marker write: its behaviour
is independent of the write outcomes. -/
theorem scanStep_writeOk_irrel (fbs : Nat) (br : BlockRange) (w1 w2 : String → Bool)
    (st : ScanState) (entry : WalkEntry) :
    scanStep fbs br w1 st entry = scanStep fbs br w2 st entry := rfl

/-- The whole walk is independent of the marker-write outcomes. -/
theorem scanWalk_writeOk_irrel (fbs : Nat) (br : BlockRange) (w1 w2 : String → Bool) :
    ∀ (entries : List WalkEntry) (st : ScanState),
      scanWalk fbs br w1 entries st = scanWalk fbs br w2 entries st := by
  intro entries
  induction entries with
  | nil => intro st; rfl
  | cons e rest ih =>
    intro st
    simp only [scanWalk, scanStep_writeOk_irrel fbs br w1 w2 st e]
    cases scanStep fbs br w2 st e <;> simp [ih]

/-! ## Claim theorems -/

/-- Claim C1, evaluated at the failing input.  After the session state has
ingested block 100 (id "a", response cursor "c1") and hit a transport error,
the loop re-issues the request with the ORIGINAL cursor `""` and the original
start 100 — `requestInfo.Cursor` is never updated from received responses — so
the second request equals the first, the server replays block 100, and the
download aborts on the continuity error instead of resuming; the observed
cursor "c1" is never used. -/
theorem c1_retry_reissues_original_request :
    createToolsDownloadFromFirehoseE ⟨100, some 200, true⟩ ⟨""⟩
        [[.block ⟨"a", "p", 100⟩ "c1", .recvErr "connection reset"],
         [.block ⟨"a", "p", 100⟩ "c1"]] =
      (.fatal (seqErrorMsg ⟨"a", "p", 100⟩ 100 "a"),
       { lastBlockID := "a", lastBlockNum := 100,
         written := [⟨"a", "p", 100⟩],
         requests := [⟨100, 200, true, ""⟩, ⟨100, 200, true, ""⟩],
         sleeps := 1 }) ∧
    ("" : String) ≠ "c1" := by
  exact ⟨rfl, by decide⟩

/-- Claim C2: once a block has been accepted in the session
(`lastBlockID ≠ ""`), a streamed block whose parent id differs from
`lastBlockID` makes the loop return the continuity error immediately with the
state — in particular the `written` list — unchanged, so the block never
reaches the merge writer; a matching (or first) block updates `lastBlockID`
and `lastBlockNum` to its own id and number and is appended to the writer. -/
theorem c2_continuity_check_guards_writer (st : DLState) (blk : PBBlock)
    (respCursor : String) (rest : List RecvResult) :
    (st.lastBlockID ≠ "" → blk.parentId ≠ st.lastBlockID →
      recvLoop (.block blk respCursor :: rest) st =
        (.fatal (seqErrorMsg blk st.lastBlockNum st.lastBlockID), st)) ∧
    (st.lastBlockID = "" ∨ blk.parentId = st.lastBlockID →
      recvLoop (.block blk respCursor :: rest) st =
        recvLoop rest
          { st with lastBlockID := blk.id, lastBlockNum := blk.number,
                    written := st.written ++ [blk] }) := by
  constructor
  · intro h1 h2
    have hb : (st.lastBlockID != "" && blk.parentId != st.lastBlockID) = true := by
      simp only [Bool.and_eq_true, bne_iff_ne, ne_eq]
      exact ⟨h1, h2⟩
    simp [recvLoop, hb]
  · intro h
    have hb : (st.lastBlockID != "" && blk.parentId != st.lastBlockID) = false := by
      rcases h with h | h <;> simp [h]
    simp [recvLoop, hb]

/-- Witness for C2 at a concrete mismatching block. -/
theorem c2_witness :
    recvLoop [.block ⟨"b", "x", 7⟩ "c"] ⟨"a", 6, [], [], 0⟩ =
      (.fatal (seqErrorMsg ⟨"b", "x", 7⟩ 6 "a"), ⟨"a", 6, [], [], 0⟩) :=
  (c2_continuity_check_guards_writer ⟨"a", 6, [], [], 0⟩ ⟨"b", "x", 7⟩ "c" []).1
    (by decide) (by decide)

/-- Claim C6: a walked bundle whose base number is below the expected base
aborts the scan with the fatal ordering-violation error: the callback fails
with the state untouched (no marker is written for it) and the walk returns
that error without visiting further entries. -/
theorem c6_out_of_order_base_fatal (fbs : Nat) (br : BlockRange)
    (writeOk : String → Bool) (st : ScanState) (entry : WalkEntry) (base : Nat)
    (rest : List WalkEntry)
    (htmp : hasSuffix entry.name ".tmp" = false)
    (hnum : entry.numMatch = some base)
    (hbase : base < U32)
    (hskip : ¬ u64sub1 (base + fbs) < br.start)
    (hord : base < st.expected) :
    scanStep fbs br writeOk st entry = .fail st (belowExpectedMsg base st.expected) ∧
    scanWalk fbs br writeOk (entry :: rest) st =
      (st, some (belowExpectedMsg base st.expected)) := by
  have h := scanStep_below fbs br writeOk st entry base htmp hnum hbase hskip hord
  exact ⟨h, by simp only [scanWalk, h]⟩

/-- Witness for C6: a bundle at base 100 arriving while 200 is expected. -/
theorem c6_witness :
    scanWalk 100 ⟨100, some 400, true⟩ (fun _ => true)
        [⟨"0000000100", some 100, .content [] none⟩] ⟨200, "", [], []⟩ =
      (⟨200, "", [], []⟩, some (belowExpectedMsg 100 200)) :=
  (c6_out_of_order_base_fatal 100 ⟨100, some 400, true⟩ (fun _ => true)
    ⟨200, "", [], []⟩ ⟨"0000000100", some 100, .content [] none⟩ 100 []
    (by decide) rfl (by decide) (by decide) (by decide)).2

/-- Claim C8: in the fallback (no-metadata) decode path, a block whose type
cannot derive its LIB number is wrapped with an approximated LIB equal to its
number minus one, except that a number at or below the protocol's first
streamable block keeps the number itself; a block whose type can derive the
LIB is passed to the encoder as-is. -/
theorem c8_fallback_lib_approximation (b : ChainBlock) (fsb : Nat)
    (h : b.number < U64) :
    wrapWithApproximateLib fsb b =
      (if b.libDerivable then EncoderInput.asIs b
       else EncoderInput.blockEnveloppe b
         (if b.number ≤ fsb then b.number else b.number - 1)) := by
  unfold wrapWithApproximateLib
  by_cases hd : b.libDerivable = true
  · simp [hd]
  · simp only [hd, Bool.false_eq_true, if_false]
    by_cases hle : b.number ≤ fsb
    · simp [hle]
    · simp only [hle, if_false]
      rw [u64sub1_eq (by omega) h]

/-- Witness for C8: LIB approximated to 4 for block 5, clamped to 1 at the
first streamable block boundary, and a derivable block left untouched. -/
theorem c8_witness :
    wrapWithApproximateLib 2 ⟨5, false⟩ = .blockEnveloppe ⟨5, false⟩ 4 ∧
    wrapWithApproximateLib 2 ⟨1, false⟩ = .blockEnveloppe ⟨1, false⟩ 1 ∧
    wrapWithApproximateLib 2 ⟨7, true⟩ = .asIs ⟨7, true⟩ := by
  refine ⟨?_, ?_, ?_⟩
  · exact (c8_fallback_lib_approximation ⟨5, false⟩ 2 (by norm_num [U64])).trans (by decide)
  · exact (c8_fallback_lib_approximation ⟨1, false⟩ 2 (by norm_num [U64])).trans (by decide)
  · exact (c8_fallback_lib_approximation ⟨7, true⟩ 2 (by norm_num [U64])).trans (by decide)

/-- Claim C3: per-bundle chain validation.  (i) With an empty carried hash the
first block seeds the chain from its own parent id, so it can never be the
mismatching block; (ii) with a chain established, a parent-id mismatch makes
the bundle broken and scanning of that bundle stops (the remaining blocks are
ignored); (iii) a fully linked bundle comes back not-broken with the bundle's
last block id as the new carried hash; and (iv) scanning any contiguous, fully
hash-chained stretch of the archive — any sub-range walk starting at the
range's rounded start — writes zero markers and raises no error. -/
theorem c3_chain_validation :
    (∀ (b : Block) (bs : List Block) (e : Option String), b.id ≠ "" →
      checkBlocks "" (b :: bs) e = checkBlocks b.id bs e) ∧
    (∀ (h : String) (b : Block) (bs : List Block) (e : Option String),
      b.id ≠ "" → h ≠ "" → b.previousId ≠ h →
      checkBlocks h (b :: bs) e = (true, h, none)) ∧
    (∀ (h : String) (b : Block) (bs : List Block) (e : Option String),
      b.id ≠ "" → (h = "" ∨ b.previousId = h) → chainFrom b.id bs = true →
      checkBlocks h (b :: bs) e = (false, lastIdOf b bs, e)) ∧
    (∀ (fbs : Nat) (br : BlockRange) (writeOk : String → Bool)
        (entries : List WalkEntry),
      0 < fbs → fbs < U32 → br.resolved = true →
      goodEntries fbs br.start (RoundToBundleStartBlock (uint32 br.start) fbs) ""
        entries = true →
      (CheckMergedBlocksBatch fbs br writeOk entries).1.writes = [] ∧
      (CheckMergedBlocksBatch fbs br writeOk entries).2 = none) := by
  refine ⟨?_, ?_, ?_, ?_⟩
  · intro b bs e hid
    simp [checkBlocks, hid]
  · intro h b bs e hid hne hmm
    simp [checkBlocks, hid, hne, hmm]
  · intro h b bs e hid hseed hchain
    exact checkBlocks_ok bs b h e hid hseed hchain
  · intro fbs br writeOk entries hf hf2 hres hgood
    unfold CheckMergedBlocksBatch
    simp only [BlockRange.IsResolved, hres, Bool.not_true, Bool.false_eq_true, if_false]
    exact scanWalk_good fbs br writeOk hf hf2 entries
      (RoundToBundleStartBlock (uint32 br.start) fbs) "" (initialScanState br fbs)
      hgood rfl rfl

/-- Witness for C3: a two-bundle chained archive scanned over the sub-range
starting at block 105 produces no markers. -/
theorem c3_witness :
    (CheckMergedBlocksBatch 100 ⟨105, some 300, true⟩ (fun _ => true)
        [⟨"0000000100", some 100, .content [⟨"a", "z"⟩, ⟨"b", "a"⟩] none⟩,
         ⟨"0000000200", some 200, .content [⟨"c", "b"⟩] none⟩]).1.writes = [] ∧
    (CheckMergedBlocksBatch 100 ⟨105, some 300, true⟩ (fun _ => true)
        [⟨"0000000100", some 100, .content [⟨"a", "z"⟩, ⟨"b", "a"⟩] none⟩,
         ⟨"0000000200", some 200, .content [⟨"c", "b"⟩] none⟩]).2 = none :=
  c3_chain_validation.2.2.2 100 ⟨105, some 300, true⟩ (fun _ => true)
    [⟨"0000000100", some 100, .content [⟨"a", "z"⟩, ⟨"b", "a"⟩] none⟩,
     ⟨"0000000200", some 200, .content [⟨"c", "b"⟩] none⟩]
    (by norm_num) (by norm_num [U32]) rfl (by decide)

/-- Claim C4: a bundle classified broken without a propagated error (empty
block id or link mismatch) makes the callback write exactly one Broken marker
for its base and reset the carried hash to empty; and with the hash reset, an
internally well-linked following bundle reseeds from its first block's parent
id and is classified not-broken (no cascading false positives). -/
theorem c4_broken_marker_resets_chain :
    (∀ (fbs : Nat) (br : BlockRange) (writeOk : String → Bool) (st : ScanState)
        (entry : WalkEntry) (base : Nat) (lh : String),
      hasSuffix entry.name ".tmp" = false →
      entry.numMatch = some base →
      base < U32 →
      ¬ u64sub1 (base + fbs) < br.start →
      st.expected = base →
      checkMergedBlockFileBroken entry.bundle st.lastBlockHash = (true, lh, none) →
      ∃ st1, (scanStep fbs br writeOk st entry = .stop st1 ∨
              scanStep fbs br writeOk st entry = .cont st1) ∧
        st1.writes = st.writes ++ [brokenKey base] ∧
        st1.lastBlockHash = "") ∧
    (∀ (b : Block) (bs : List Block), b.id ≠ "" → chainFrom b.id bs = true →
      checkMergedBlockFileBroken (.content (b :: bs) none) "" =
        (false, lastIdOf b bs, none)) := by
  constructor
  · intro fbs br writeOk st entry base lh htmp hnum hbase hskip hexp hres
    have hord : ¬ base < st.expected := by omega
    have hstep := scanStep_processed fbs br writeOk st entry base htmp hnum hbase hskip hord
    rw [processEntry_broken fbs br writeOk st entry base lh hexp hres] at hstep
    by_cases hstop : (br.IsClosed && stopBoundaryHit base (br.stop.getD 0) fbs) = true
    · rw [if_pos hstop] at hstep
      exact ⟨_, Or.inl hstep, rfl, rfl⟩
    · rw [if_neg hstop] at hstep
      exact ⟨_, Or.inr hstep, rfl, rfl⟩
  · intro b bs hid hchain
    exact checkBlocks_ok bs b "" none hid (Or.inl rfl) hchain

/-- Witness for C4 at a bundle whose first block has an empty id. -/
theorem c4_witness :
    ∃ st1, (scanStep 100 ⟨100, some 400, true⟩ (fun _ => true) ⟨100, "x", [], []⟩
          ⟨"0000000100", some 100, .content [⟨"", ""⟩] none⟩ = .stop st1 ∨
        scanStep 100 ⟨100, some 400, true⟩ (fun _ => true) ⟨100, "x", [], []⟩
          ⟨"0000000100", some 100, .content [⟨"", ""⟩] none⟩ = .cont st1) ∧
      st1.writes = [] ++ [brokenKey 100] ∧
      st1.lastBlockHash = "" :=
  c4_broken_marker_resets_chain.1 100 ⟨100, some 400, true⟩ (fun _ => true)
    ⟨100, "x", [], []⟩ ⟨"0000000100", some 100, .content [⟨"", ""⟩] none⟩ 100 "x"
    (by decide) rfl (by decide) (by decide) rfl (by decide)

/-- Claim C5: the gap filler emits one Missing marker for every skipped base
`expected, expected + fbs, ...` strictly below the observed base; after a
processed bundle the callback continues with `expected = base + fbs`; and on
the concrete archive with bundles at bases 100 and 300, `fileBlockSize = 100`
and range `[100, 400)`, the scan writes exactly the single marker
`0000000200.missing`. -/
theorem c5_missing_gap_fill :
    (∀ (fbs expected target : Nat), 0 < fbs →
      fillMissing fbs expected target =
        ((List.range ((target - expected + fbs - 1) / fbs)).map
            (fun i => expected + fbs * i),
         expected + fbs * ((target - expected + fbs - 1) / fbs))) ∧
    (∀ (fbs : Nat) (br : BlockRange) (writeOk : String → Bool) (st : ScanState)
        (entry : WalkEntry) (base : Nat) (st1 : ScanState),
      hasSuffix entry.name ".tmp" = false →
      entry.numMatch = some base →
      base < U32 →
      ¬ u64sub1 (base + fbs) < br.start →
      scanStep fbs br writeOk st entry = .cont st1 →
      st1.expected = base + fbs) ∧
    ((CheckMergedBlocksBatch 100 ⟨100, some 400, true⟩ (fun _ => true)
        [⟨"0000000100", some 100, .content [⟨"a", "z"⟩] none⟩,
         ⟨"0000000300", some 300, .content [⟨"b", "a"⟩] none⟩]).1.writes
      = [missingKey 200]) ∧
    missingKey 200 = "0000000200.missing" := by
  refine ⟨?_, ?_, by decide, by decide⟩
  · intro fbs expected target hf
    exact fillMissing_closed fbs expected target hf
  · intro fbs br writeOk st entry base st1 htmp hnum hbase hskip hstep
    by_cases hord : base < st.expected
    · rw [scanStep_below fbs br writeOk st entry base htmp hnum hbase hskip hord] at hstep
      cases hstep
    · rw [scanStep_processed fbs br writeOk st entry base htmp hnum hbase hskip hord]
        at hstep
      unfold processEntry at hstep
      simp only [] at hstep
      split at hstep
      · cases hstep
      · split at hstep
        · cases hstep
        · cases hstep
          rfl

/-- Witness for C5: the fill loop from 100 towards 300 with stride 100. -/
theorem c5_witness : fillMissing 100 100 300 = ([100, 200], 300) :=
  (c5_missing_gap_fill.1 100 100 300 (by norm_num)).trans (by decide)

/-- Claim C7, refuted at a concrete input: on a one-bundle archive whose only
bundle is broken, with a destination store on which every marker write fails,
a Broken marker write is attempted (`writes = [brokenKey 100]`) and fails
(`writeObject` returns an error), the scan does not abort (`.2 = none`) — but
the whole observable output, console log included, is identical to the run in
which every write succeeds: the write failure is discarded without being
logged, so the claim's "is logged" part is false on the code (the source
discards the `WriteObject` error at both call sites and prints nothing about
it). -/
theorem c7_counterexample :
    CheckMergedBlocksBatch 100 ⟨100, some 200, true⟩ (fun _ => false)
        [⟨"0000000100", some 100, .content [⟨"", ""⟩] none⟩] =
      CheckMergedBlocksBatch 100 ⟨100, some 200, true⟩ (fun _ => true)
        [⟨"0000000100", some 100, .content [⟨"", ""⟩] none⟩] ∧
    (CheckMergedBlocksBatch 100 ⟨100, some 200, true⟩ (fun _ => false)
        [⟨"0000000100", some 100, .content [⟨"", ""⟩] none⟩]).1.writes
      = [brokenKey 100] ∧
    writeObject (fun _ => false) (brokenKey 100) =
      some ("write failed: " ++ brokenKey 100) ∧
    (CheckMergedBlocksBatch 100 ⟨100, some 200, true⟩ (fun _ => false)
        [⟨"0000000100", some 100, .content [⟨"", ""⟩] none⟩]).2 = none :=
  ⟨rfl, by decide, by decide, by decide⟩

/-- Claim C7 as amended: a failure of a marker-object write (broken or
missing) is silently ignored — the scan's entire behaviour, console output
included, is independent of the write outcomes — and it does not abort the
scan: the walk continues to the next bundle and later corruption is still
detected and marked, as the concrete two-broken-bundle run with all writes
failing shows. -/
theorem c7_write_failure_silently_ignored :
    (∀ (fbs : Nat) (br : BlockRange) (writeOk : String → Bool)
        (entries : List WalkEntry),
      CheckMergedBlocksBatch fbs br writeOk entries =
        CheckMergedBlocksBatch fbs br (fun _ => true) entries) ∧
    ((CheckMergedBlocksBatch 100 ⟨100, some 400, true⟩ (fun _ => false)
        [⟨"0000000100", some 100, .content [⟨"", ""⟩] none⟩,
         ⟨"0000000300", some 300, .content [⟨"", ""⟩] none⟩]).1.writes
      = [brokenKey 100, missingKey 200, brokenKey 300] ∧
     (CheckMergedBlocksBatch 100 ⟨100, some 400, true⟩ (fun _ => false)
        [⟨"0000000100", some 100, .content [⟨"", ""⟩] none⟩,
         ⟨"0000000300", some 300, .content [⟨"", ""⟩] none⟩]).2 = none) := by
  constructor
  · intro fbs br writeOk entries
    unfold CheckMergedBlocksBatch
    rw [scanWalk_writeOk_irrel fbs br writeOk (fun _ => true) entries]
  · exact ⟨by decide, by decide⟩

/-- `processEntry` never reads the `numMatch` field of the entry. -/
theorem processEntry_numMatch_irrel (fbs : Nat) (br : BlockRange)
    (writeOk : String → Bool) (st : ScanState) (n : String) (m1 m2 : Option Nat)
    (bu : BundleRead) (base : Nat) :
    processEntry fbs br writeOk st ⟨n, m1, bu⟩ base =
      processEntry fbs br writeOk st ⟨n, m2, bu⟩ base := rfl

/-- Claim C9: the scanner's bundle arithmetic is 32-bit.  (1) The initial
expected base and the starting filename are computed from `uint32(Start)`, so
they depend on `Start` only modulo `2^32`; (2) a matched number at or above
`2^32` parses to the 32-bit bound `2^32 - 1` with an error that the callback
discards — the walk behaves exactly as if the file carried the clamped value;
(3) the stop-boundary test compares `uint32` casts, so it depends on `Stop`
only modulo `2^32`; and (4) concretely, a range starting at `2^32 + 100`
starts the walk at `0000000100` although the true 64-bit rounding is
`4294967300`. -/
theorem c9_bundle_arithmetic_truncated_to_32bit :
    (∀ (br : BlockRange) (fbs : Nat),
      initialScanState br fbs = initialScanState { br with start := br.start % U32 } fbs ∧
      firstFilename br fbs = firstFilename { br with start := br.start % U32 } fbs) ∧
    (∀ v : Nat, U32 ≤ v → parseUint32 v = (U32 - 1, false)) ∧
    (∀ (fbs : Nat) (br : BlockRange) (writeOk : String → Bool) (st : ScanState)
        (entry : WalkEntry) (v : Nat),
      entry.numMatch = some v → U32 ≤ v →
      scanStep fbs br writeOk st entry =
        scanStep fbs br writeOk st { entry with numMatch := some (U32 - 1) }) ∧
    (∀ (baseNum stp fbs : Nat), 1 ≤ stp → stp + U32 < U64 →
      stopBoundaryHit baseNum (stp + U32) fbs = stopBoundaryHit baseNum stp fbs) ∧
    (firstFilename ⟨U32 + 100, some (U32 + 400), true⟩ 100 = "0000000100" ∧
     RoundToBundleStartBlock (U32 + 100) 100 = 4294967300) := by
  refine ⟨?_, ?_, ?_, ?_, by decide, by decide⟩
  · intro br fbs
    have hmm : br.start % U32 % U32 = br.start % U32 :=
      Nat.mod_mod_of_dvd br.start dvd_rfl
    constructor
    · simp [initialScanState, uint32, hmm]
    · simp [firstFilename, uint32, hmm]
  · intro v hge
    exact parseUint32_ge hge
  · intro fbs br writeOk st entry v hnum hge
    obtain ⟨n, m, bu⟩ := entry
    have hm : m = some v := hnum
    subst hm
    unfold scanStep
    by_cases htmp : hasSuffix n ".tmp" = true
    · simp [htmp]
    · simp only [Bool.not_eq_true] at htmp
      simp only [htmp, Bool.false_eq_true, if_false]
      simp only [parseUint32_ge hge, parseUint32_lt (show U32 - 1 < U32 by
        rw [U32_val]; omega)]
      rw [processEntry_numMatch_irrel fbs br writeOk st n (some v) (some (U32 - 1))
        bu (U32 - 1)]
  · intro baseNum stp fbs h1 h2
    unfold stopBoundaryHit
    have harg : uint32 (u64sub1 (stp + U32)) = uint32 (u64sub1 stp) := by
      unfold uint32 u64sub1
      rw [U32_val, U64_val] at *
      omega
    rw [harg]

/-- Witness for C9: the stop test cannot tell stop `2^32 + 400` from stop
`400`. -/
theorem c9_witness :
    stopBoundaryHit 300 (400 + U32) 100 = stopBoundaryHit 300 400 100 :=
  c9_bundle_arithmetic_truncated_to_32bit.2.2.2.1 300 400 100 (by norm_num)
    (by norm_num [U32, U64])

/-- Claim C10: a read error reached after the decoded blocks of a bundle have
scanned clean returns `broken = false` together with the error, so the walk
aborts without writing any Broken marker for that bundle (the state's `writes`
are untouched); only the open/reader-creation failure path — which occurs
before any block is decoded — returns `broken = true`, writing the marker
before the same abort. -/
theorem c10_read_error_aborts_without_marker :
    (∀ (h : String) (b : Block) (bs : List Block) (e : String),
      b.id ≠ "" → (h = "" ∨ b.previousId = h) → chainFrom b.id bs = true →
      checkMergedBlockFileBroken (.content (b :: bs) (some e)) h =
        (false, lastIdOf b bs, some e)) ∧
    (∀ (e h : String),
      checkMergedBlockFileBroken (.openErr e) h = (true, "", some e)) ∧
    (∀ (fbs : Nat) (br : BlockRange) (writeOk : String → Bool) (st : ScanState)
        (entry : WalkEntry) (rest : List WalkEntry) (base : Nat) (b : Block)
        (bs : List Block) (e : String),
      hasSuffix entry.name ".tmp" = false →
      entry.numMatch = some base → base < U32 →
      ¬ u64sub1 (base + fbs) < br.start → st.expected = base →
      entry.bundle = .content (b :: bs) (some e) →
      b.id ≠ "" → (st.lastBlockHash = "" ∨ b.previousId = st.lastBlockHash) →
      chainFrom b.id bs = true →
      scanWalk fbs br writeOk (entry :: rest) st =
        ({ st with expected := base, lastBlockHash := lastIdOf b bs,
                   logs := st.logs ++ ["checking " ++ entry.name] }, some e)) ∧
    (∀ (fbs : Nat) (br : BlockRange) (writeOk : String → Bool) (st : ScanState)
        (entry : WalkEntry) (rest : List WalkEntry) (base : Nat) (e : String),
      hasSuffix entry.name ".tmp" = false →
      entry.numMatch = some base → base < U32 →
      ¬ u64sub1 (base + fbs) < br.start → st.expected = base →
      entry.bundle = .openErr e →
      scanWalk fbs br writeOk (entry :: rest) st =
        ({ st with expected := base, lastBlockHash := "",
                   writes := st.writes ++ [brokenKey base],
                   logs := st.logs ++ ["checking " ++ entry.name, brokenLog base] },
         some e)) := by
  refine ⟨?_, ?_, ?_, ?_⟩
  · intro h b bs e hid hseed hchain
    exact checkBlocks_ok bs b h (some e) hid hseed hchain
  · intro e h
    rfl
  · intro fbs br writeOk st entry rest base b bs e htmp hnum hbase hskip hexp
      hbundle hid hseed hchain
    have hres : checkMergedBlockFileBroken entry.bundle st.lastBlockHash =
        (false, lastIdOf b bs, some e) := by
      rw [hbundle]
      exact checkBlocks_ok bs b st.lastBlockHash (some e) hid hseed hchain
    have hord : ¬ base < st.expected := by omega
    have hstep := scanStep_processed fbs br writeOk st entry base htmp hnum hbase
      hskip hord
    rw [processEntry_err_clean fbs br writeOk st entry base (lastIdOf b bs) e hexp
      hres] at hstep
    simp only [scanWalk, hstep]
  · intro fbs br writeOk st entry rest base e htmp hnum hbase hskip hexp hbundle
    have hres : checkMergedBlockFileBroken entry.bundle st.lastBlockHash =
        (true, "", some e) := by
      rw [hbundle]
      rfl
    have hord : ¬ base < st.expected := by omega
    have hstep := scanStep_processed fbs br writeOk st entry base htmp hnum hbase
      hskip hord
    rw [processEntry_err_broken fbs br writeOk st entry base "" e hexp hres] at hstep
    simp only [scanWalk, hstep]

/-- Witness for C10: a mid-bundle read error after one clean block aborts the
scan, leaving `writes` empty; an open failure writes the marker first. -/
theorem c10_witness :
    scanWalk 100 ⟨100, some 400, true⟩ (fun _ => true)
        [⟨"0000000100", some 100, .content [⟨"a", "z"⟩] (some "read failed")⟩,
         ⟨"0000000200", some 200, .content [] none⟩]
        ⟨100, "", [], []⟩ =
      (⟨100, "a", [], ["checking 0000000100"]⟩, some "read failed") := by
  have h := c10_read_error_aborts_without_marker.2.2.1 100 ⟨100, some 400, true⟩
    (fun _ => true) ⟨100, "", [], []⟩
    ⟨"0000000100", some 100, .content [⟨"a", "z"⟩] (some "read failed")⟩
    [⟨"0000000200", some 200, .content [] none⟩] 100 ⟨"a", "z"⟩ [] "read failed"
    (by decide) rfl (by decide) (by decide) rfl rfl (by decide) (Or.inl rfl) rfl
  exact h.trans (by decide)

end Firehose
